import Mathlib

/-!
Shallow embedding of two components of the shadPS4 emulator excerpt:

* the network PHY driver state machine
  (src/core/libraries/network/net_phy.h / net_phy.cpp), and
* the poll-task scheduling registry XilTimer
  (src/core/xiltimer.h / xiltimer.cpp),

together with proofs of the specification claims about them.

Machine integers: `init_counter` and `last_poll_time` are `u32` in the
source; they are modelled as `Nat` with an explicit `% 4294967296` at every
point where the source stores into a `u32`.  The external collaborators
(`SDL_GetTicks()` and `Config::getIsConnectedToNetwork()`) are passed in as
explicit arguments (`t : Nat`, `connected : Bool`).  A `PhyDriver*` pointer
that may be null is modelled as `Option PhyDriver`.  Log output (LOG_ERROR /
LOG_INFO lines) is modelled as a `List String` returned next to the state.
-/

namespace NetPhy

/-- The enum class PhyState of net_phy.h. -/
inductive PhyState where
  | UNINITIALIZED
  | INITIALIZING
  | OPERATIONAL
  | ERROR
deriving DecidableEq, Repr

/-- The struct PhyDriver of net_phy.h.  `init_counter` and `last_poll_time`
are u32 fields, kept as `Nat` values below 4294967296. -/
structure PhyDriver where
  state : PhyState
  init_counter : Nat
  link_up : Bool
  last_poll_time : Nat
deriving DecidableEq, Repr

/-- The default constructor PhyDriver() of net_phy.h: UNINITIALIZED,
counter 0, link down, last poll time 0. -/
def phyNew : PhyDriver :=
  ⟨PhyState.UNINITIALIZED, 0, false, 0⟩

/-- Modulus of the u32 stores in the source. -/
def U32M : Nat := 4294967296

/-- Phy_Init of net_phy.cpp.  `t` is the value of SDL_GetTicks().  Returns
the device after the call together with the log lines emitted. -/
def Phy_Init (t : Nat) (phy : Option PhyDriver) : Option PhyDriver × List String :=
  match phy with
  | none => (none, ["Phy_Init: Invalid PHY driver pointer"])
  | some _ =>
      (some ⟨PhyState.INITIALIZING, 0, false, t % U32M⟩,
       ["PHY driver initializing..."])

/-- Phy_Poll of net_phy.cpp.  `t` is SDL_GetTicks(), `connected` is the value
of Config::getIsConnectedToNetwork().  Returns the device after the call
together with the log lines emitted.  A null pointer returns at once, with
no log line. -/
def Phy_Poll (t : Nat) (connected : Bool) (phy : Option PhyDriver) :
    Option PhyDriver × List String :=
  match phy with
  | none => (none, [])
  | some p =>
      let p1 : PhyDriver := { p with last_poll_time := t % U32M }
      match p1.state with
      | PhyState.UNINITIALIZED => (some p1, [])
      | PhyState.INITIALIZING =>
          let c := (p1.init_counter + 1) % U32M
          if 3 ≤ c then
            (some { p1 with state := PhyState.OPERATIONAL, init_counter := c,
                            link_up := connected },
             ["PHY driver now operational"])
          else
            (some { p1 with init_counter := c }, [])
      | PhyState.OPERATIONAL =>
          (some { p1 with link_up := connected }, [])
      | PhyState.ERROR => (some p1, [])

/-- Phy_IsOperational of net_phy.cpp: `return phy && phy->state ==
PhyState::OPERATIONAL;`. -/
def Phy_IsOperational (phy : Option PhyDriver) : Bool :=
  match phy with
  | none => false
  | some p => p.state == PhyState.OPERATIONAL

/-- One element of a sequence of environments for repeated polling: the
SDL_GetTicks() value and the connectivity signal at that poll. -/
abbrev PollEnv := Nat × Bool

/-- Repeated Phy_Poll calls under a sequence of environments, keeping only
the device (the logs are dropped). -/
def pollSeq (envs : List PollEnv) (phy : Option PhyDriver) : Option PhyDriver :=
  envs.foldl (fun p e => (Phy_Poll e.1 e.2 p).1) phy

/-- State tag of an optional device. -/
def stateOf (phy : Option PhyDriver) : Option PhyState :=
  phy.map PhyDriver.state

/-- One external operation on a PHY device: an Init call or a Poll call,
with its environment. -/
inductive PhyOp where
  | init (t : Nat)
  | poll (t : Nat) (connected : Bool)

/-- Apply one operation to an optional device, dropping logs. -/
def applyOp (phy : Option PhyDriver) : PhyOp → Option PhyDriver
  | PhyOp.init t => (Phy_Init t phy).1
  | PhyOp.poll t b => (Phy_Poll t b phy).1

/-- Run a sequence of Init / Poll operations. -/
def runOps (ops : List PhyOp) (phy : Option PhyDriver) : Option PhyDriver :=
  ops.foldl applyOp phy

end NetPhy

namespace XilTimer

/-- The struct PollTask of xiltimer.h.  The state mutated by callbacks lives
outside the registry; it is modelled by a type parameter `σ`.  A callback is
a std::function which may be empty (`none`); a bound callback takes the
outside world and returns the world after its side effects together with
`some msg` when it threw an exception with message `msg` (the source catches
std::exception and reads e.what(); a throwing callback has still performed
the side effects it made before throwing). -/
structure PollTask (σ : Type) where
  name : String
  callback : Option (σ → σ × Option String)
  enabled : Bool

/-- The registry field poll_tasks (a std::vector kept in registration
order). -/
abbrev Registry (σ : Type) := List (PollTask σ)

/-- XilTimer::RegisterPollTask of xiltimer.cpp: emplace_back of a task
constructed with enabled = true. -/
def RegisterPollTask (tasks : Registry σ) (name : String)
    (cb : Option (σ → σ × Option String)) : Registry σ :=
  tasks ++ [⟨name, cb, true⟩]

/-- Observable outcome of one XilTimer::PollAll pass: the outside world
after the pass, the names of the tasks whose callbacks were invoked, in
invocation order, and the LOG_ERROR lines (task name, exception message)
recorded for callbacks that threw. -/
structure PollResult (σ : Type) where
  world : σ
  invoked : List String
  faults : List (String × String)

/-- XilTimer::PollAll of xiltimer.cpp: walk the tasks in order; for each
task with enabled set and a bound callback, invoke the callback inside a
try/catch; a thrown exception is logged with the task name and the loop
continues with the next task. -/
def pollAll : Registry σ → σ → PollResult σ
  | [], w => ⟨w, [], []⟩
  | t :: rest, w =>
      match t.callback with
      | none => pollAll rest w
      | some cb =>
          if t.enabled then
            match cb w with
            | (w2, none) =>
                let r := pollAll rest w2
                ⟨r.world, t.name :: r.invoked, r.faults⟩
            | (w2, some m) =>
                let r := pollAll rest w2
                ⟨r.world, t.name :: r.invoked, (t.name, m) :: r.faults⟩
          else pollAll rest w

/-- XilTimer::SetTaskEnabled of xiltimer.cpp: walk the tasks in order, set
the enabled flag of the first task whose name matches and stop; if no task
matches, nothing changes. -/
def SetTaskEnabled (tasks : Registry σ) (name : String) (enabled : Bool) :
    Registry σ :=
  match tasks with
  | [] => []
  | t :: rest =>
      if t.name == name then { t with enabled := enabled } :: rest
      else t :: SetTaskEnabled rest name enabled

/-- Names of the tasks PollAll invokes: those with enabled set and a bound
callback, in registration order. -/
def enabledNames (tasks : Registry σ) : List String :=
  (tasks.filter fun t => t.enabled && t.callback.isSome).map PollTask.name

end XilTimer

namespace XilTimer

/-- The list of invoked task names of one pass does not depend on the
outside world: it is always the enabled tasks with a bound callback, in
registration order.  In particular it is unaffected by any fault a callback
reports. -/
theorem pollAll_invoked_eq (tasks : Registry σ) :
    ∀ w : σ, (pollAll tasks w).invoked = enabledNames tasks := by
  induction tasks with
  | nil => intro w; rfl
  | cons t rest ih =>
      intro w
      rcases hcb : t.callback with _ | cb
      · have hmem : (t.enabled && t.callback.isSome) = false := by
          simp [hcb]
        simp [pollAll, hcb, enabledNames, List.filter_cons, hmem]
        exact ih w
      · by_cases he : t.enabled
        · have hmem : (t.enabled && t.callback.isSome) = true := by
            simp [hcb, he]
          rcases hres : cb w with ⟨w2, f⟩
          rcases f with _ | m
          all_goals
            simp [pollAll, hcb, he, hres, enabledNames, List.filter_cons, hmem]
          all_goals
            simpa [enabledNames] using ih w2
        · have hmem : (t.enabled && t.callback.isSome) = false := by
            simp [he]
          simp [pollAll, hcb, he, enabledNames, List.filter_cons, hmem]
          exact ih w

/-- A pass over a concatenation is the pass over the first part followed by
the pass over the second part started in the world the first part left. -/
theorem pollAll_append (xs ys : Registry σ) :
    ∀ w : σ,
      pollAll (xs ++ ys) w =
        ⟨(pollAll ys (pollAll xs w).world).world,
         (pollAll xs w).invoked ++ (pollAll ys (pollAll xs w).world).invoked,
         (pollAll xs w).faults ++ (pollAll ys (pollAll xs w).world).faults⟩ := by
  induction xs with
  | nil => intro w; simp [pollAll]
  | cons t rest ih =>
      intro w
      rcases hcb : t.callback with _ | cb
      · simpa [pollAll, hcb] using ih w
      · by_cases he : t.enabled
        · rcases hres : cb w with ⟨w2, f⟩
          rcases f with _ | m
          · simp [pollAll, hcb, he, hres, ih w2]
          · simp [pollAll, hcb, he, hres, ih w2]
        · simpa [pollAll, hcb, he] using ih w

/-- Tasks that append at the end extend the enabled-name list at the end. -/
theorem enabledNames_append (xs ys : Registry σ) :
    enabledNames (xs ++ ys) = enabledNames xs ++ enabledNames ys := by
  simp [enabledNames, List.filter_append]

end XilTimer

namespace NetPhy

/-- Last-poll timestamp after a sequence of polls: each poll stores its tick
value truncated to u32, so the last environment wins. -/
def lastTimeAfter (envs : List PollEnv) (t0 : Nat) : Nat :=
  envs.foldl (fun _ e => e.1 % U32M) t0

theorem pollSeq_cons (e : PollEnv) (envs : List PollEnv) (phy : Option PhyDriver) :
    pollSeq (e :: envs) phy = pollSeq envs ((Phy_Poll e.1 e.2 phy).1) := rfl

theorem lastTimeAfter_cons (e : PollEnv) (envs : List PollEnv) (t0 : Nat) :
    lastTimeAfter (e :: envs) t0 = lastTimeAfter envs (e.1 % U32M) := rfl

/-- One poll in the INITIALIZING state below the threshold: the counter goes
up by one and the state stays INITIALIZING. -/
theorem poll_initializing_step (p : PhyDriver) (t : Nat) (b : Bool)
    (hs : p.state = PhyState.INITIALIZING) (hc : p.init_counter + 1 < 3) :
    (Phy_Poll t b (some p)).1 =
      some ⟨PhyState.INITIALIZING, p.init_counter + 1, p.link_up, t % U32M⟩ := by
  obtain ⟨s, c, l, lt⟩ := p
  simp only at hs hc
  subst hs
  have hU : U32M = 4294967296 := rfl
  have hmod : (c + 1) % U32M = c + 1 := Nat.mod_eq_of_lt (by omega)
  have hif : ¬ 2 ≤ c := by omega
  simp [Phy_Poll, hmod, hif]

/-- One poll in the INITIALIZING state that reaches the threshold: the
state becomes OPERATIONAL and the link-up flag samples the connectivity
signal. -/
theorem poll_initializing_done (p : PhyDriver) (t : Nat) (b : Bool)
    (hs : p.state = PhyState.INITIALIZING) (hc3 : 3 ≤ p.init_counter + 1)
    (hlt : p.init_counter + 1 < U32M) :
    (Phy_Poll t b (some p)).1 =
      some ⟨PhyState.OPERATIONAL, p.init_counter + 1, b, t % U32M⟩ := by
  obtain ⟨s, c, l, lt⟩ := p
  simp only at hs hc3 hlt
  subst hs
  have hmod : (c + 1) % U32M = c + 1 := Nat.mod_eq_of_lt hlt
  have hif : 2 ≤ c := by omega
  simp [Phy_Poll, hmod, hif]

/-- Any number of polls in the INITIALIZING state that stays below the
threshold: the counter counts the polls, the state stays INITIALIZING, the
link flag is untouched. -/
theorem pollSeq_initializing_lt (envs : List PollEnv) :
    ∀ p : PhyDriver, p.state = PhyState.INITIALIZING →
      p.init_counter + envs.length < 3 →
      pollSeq envs (some p) =
        some ⟨PhyState.INITIALIZING, p.init_counter + envs.length, p.link_up,
              lastTimeAfter envs p.last_poll_time⟩ := by
  induction envs with
  | nil =>
      intro p hs _
      obtain ⟨s, c, l, lt⟩ := p
      simp only at hs
      subst hs
      simp [pollSeq, lastTimeAfter]
  | cons e envs ih =>
      intro p hs hc
      have hc1 : p.init_counter + 1 < 3 := by
        have := hc; simp [List.length_cons] at this; omega
      rw [pollSeq_cons, poll_initializing_step p e.1 e.2 hs hc1,
          lastTimeAfter_cons]
      have := ih ⟨PhyState.INITIALIZING, p.init_counter + 1, p.link_up, e.1 % U32M⟩
        rfl (by simp at hc ⊢; omega)
      rw [this]
      simp [List.length_cons]
      omega

/-- A device in the ERROR state polled any number of times: only the
last-poll timestamp moves; state, counter and link flag are untouched. -/
theorem pollSeq_error (envs : List PollEnv) :
    ∀ p : PhyDriver, p.state = PhyState.ERROR →
      pollSeq envs (some p) =
        some ⟨PhyState.ERROR, p.init_counter, p.link_up,
              lastTimeAfter envs p.last_poll_time⟩ := by
  induction envs with
  | nil =>
      intro p hs
      obtain ⟨s, c, l, lt⟩ := p
      simp only at hs
      subst hs
      simp [pollSeq, lastTimeAfter]
  | cons e envs ih =>
      intro p hs
      have hstep : (Phy_Poll e.1 e.2 (some p)).1 =
          some ⟨PhyState.ERROR, p.init_counter, p.link_up, e.1 % U32M⟩ := by
        obtain ⟨s, c, l, lt⟩ := p
        simp only at hs
        subst hs
        simp [Phy_Poll]
      rw [pollSeq_cons, hstep, lastTimeAfter_cons]
      exact ih _ rfl

/-- Invariant of reachable devices: the initialization progress counter
never exceeds 3, and while still INITIALIZING it is strictly below 3. -/
def phyInv (p : PhyDriver) : Prop :=
  p.init_counter ≤ 3 ∧ (p.state = PhyState.INITIALIZING → p.init_counter < 3)

/-- The invariant holds for the freshly constructed device. -/
theorem phyInv_new : phyInv phyNew := by
  constructor <;> simp [phyNew, phyInv]

/-- Each Init or Poll operation preserves the invariant. -/
theorem applyOp_inv (phy : Option PhyDriver) (op : PhyOp)
    (h : ∀ p, phy = some p → phyInv p) :
    ∀ q, applyOp phy op = some q → phyInv q := by
  rcases op with t | ⟨t, b⟩
  · rcases phy with _ | p
    · intro q hq; simp [applyOp, Phy_Init] at hq
    · intro q hq
      simp [applyOp, Phy_Init] at hq
      subst hq
      exact ⟨by simp, by simp⟩
  · rcases phy with _ | p
    · intro q hq; simp [applyOp, Phy_Poll] at hq
    · intro q hq
      have hp := h p rfl
      obtain ⟨s, c, l, lt⟩ := p
      obtain ⟨hle, hlt⟩ := hp
      simp only at hle hlt
      rcases s with _ | _ | _ | _
      · simp [applyOp, Phy_Poll] at hq
        subst hq
        exact ⟨hle, by simp⟩
      · have hc : c < 3 := hlt rfl
        have hU : U32M = 4294967296 := rfl
        have hmod : (c + 1) % U32M = c + 1 := Nat.mod_eq_of_lt (by omega)
        by_cases h3 : 3 ≤ (c + 1) % U32M
        · simp [applyOp, Phy_Poll, h3] at hq
          subst hq
          refine ⟨by simp [hmod]; omega, by simp⟩
        · simp [applyOp, Phy_Poll, h3] at hq
          subst hq
          refine ⟨by simp [hmod]; omega, fun _ => by simp [hmod] at h3 ⊢; omega⟩
      · simp [applyOp, Phy_Poll] at hq
        subst hq
        exact ⟨hle, by simp⟩
      · simp [applyOp, Phy_Poll] at hq
        subst hq
        exact ⟨hle, by simp⟩

/-- The invariant is preserved along any run of operations. -/
theorem runOps_inv (ops : List PhyOp) :
    ∀ phy : Option PhyDriver, (∀ p, phy = some p → phyInv p) →
      ∀ q, runOps ops phy = some q → phyInv q := by
  induction ops with
  | nil => intro phy h q hq; exact h q hq
  | cons op ops ih =>
      intro phy h q hq
      have hstep : ∀ p, applyOp phy op = some p → phyInv p := applyOp_inv phy op h
      exact ih (applyOp phy op) hstep q hq

end NetPhy

namespace XilTimer

/-- First-match lemma: SetTaskEnabled on pre ++ tk :: post, where no task of
pre has the looked-up name and tk does, updates exactly tk. -/
theorem SetTaskEnabled_firstMatch (nm : String) (b : Bool) (pre : Registry σ) :
    ∀ (tk : PollTask σ) (post : Registry σ),
      (∀ u ∈ pre, u.name ≠ nm) → tk.name = nm →
      SetTaskEnabled (pre ++ tk :: post) nm b =
        pre ++ { tk with enabled := b } :: post := by
  induction pre with
  | nil =>
      intro tk post _ htk
      simp [SetTaskEnabled, htk]
  | cons u pre ih =>
      intro tk post hpre htk
      have hu : u.name ≠ nm := hpre u (by simp)
      have hbeq : (u.name == nm) = false := by simp [hu]
      have hstep : SetTaskEnabled ((u :: pre) ++ tk :: post) nm b
          = u :: SetTaskEnabled (pre ++ tk :: post) nm b := by
        simp [SetTaskEnabled, hbeq]
      rw [hstep, ih tk post (fun v hv => hpre v (by simp [hv])) htk]
      simp

/-- No-match lemma: SetTaskEnabled leaves the registry untouched when no
task has the looked-up name. -/
theorem SetTaskEnabled_noMatch (nm : String) (b : Bool) :
    ∀ tasks : Registry σ, (∀ t ∈ tasks, t.name ≠ nm) →
      SetTaskEnabled tasks nm b = tasks := by
  intro tasks
  induction tasks with
  | nil => intro _; rfl
  | cons t rest ih =>
      intro h
      have ht : t.name ≠ nm := h t (by simp)
      have hbeq : (t.name == nm) = false := by simp [ht]
      simp only [SetTaskEnabled, hbeq, if_false, Bool.false_eq_true]
      rw [ih (fun v hv => h v (by simp [hv]))]

end XilTimer

/-- C1: if one task of the registry reports a fault from its callback during
a PollAll pass, the fault is recorded in the log paired with that task name,
and the pass still invokes exactly the enabled tasks with a bound callback,
in registration order — the faulting task does not suppress later tasks.
Moreover the set of tasks invoked by a pass is the same from any world, so
later passes are unaffected.  PollAll is a total function into PollResult,
so no fault reaches its caller by construction. -/
theorem C1_pollAll_fault_isolated (σ : Type) (pre post : List (XilTimer.PollTask σ))
    (nm msg : String) (cb : σ → σ × Option String) (w : σ)
    (hfault : (cb (XilTimer.pollAll pre w).world).2 = some msg) :
    (nm, msg) ∈ (XilTimer.pollAll (pre ++ ⟨nm, some cb, true⟩ :: post) w).faults ∧
    (XilTimer.pollAll (pre ++ ⟨nm, some cb, true⟩ :: post) w).invoked
      = XilTimer.enabledNames (pre ++ ⟨nm, some cb, true⟩ :: post) ∧
    ∀ v : σ, (XilTimer.pollAll (pre ++ ⟨nm, some cb, true⟩ :: post) v).invoked
      = XilTimer.enabledNames (pre ++ ⟨nm, some cb, true⟩ :: post) := by
  refine ⟨?_, XilTimer.pollAll_invoked_eq _ w, fun v => XilTimer.pollAll_invoked_eq _ v⟩
  rw [XilTimer.pollAll_append]
  rcases hcb : cb (XilTimer.pollAll pre w).world with ⟨w2, f⟩
  have hf : f = some msg := by rw [hcb] at hfault; exact hfault
  subst hf
  simp [XilTimer.pollAll, hcb]

/-- Callback of the scenario task A: increments the first counter of the
world and reports no fault. -/
def taskIncA : XilTimer.PollTask (Nat × Nat) :=
  ⟨"A", some (fun s => ((s.1 + 1, s.2), none)), true⟩

/-- Callback of the scenario task B: leaves the world alone and throws. -/
def cbB : Nat × Nat → (Nat × Nat) × Option String :=
  fun s => (s, some "boom")

/-- Callback of the scenario task C: increments the second counter of the
world and reports no fault. -/
def taskIncC : XilTimer.PollTask (Nat × Nat) :=
  ⟨"C", some (fun s => ((s.1, s.2 + 1), none)), true⟩

/-- Witness for C1, running the scenario of section 8 of the spec: tasks A,
B, C, where B throws; one pass logs the fault of B, invokes A, B and C, and
both counters end at 1. -/
theorem C1_witness :
    ("B", "boom") ∈
      (XilTimer.pollAll [taskIncA, ⟨"B", some cbB, true⟩, taskIncC] (0, 0)).faults ∧
    (XilTimer.pollAll [taskIncA, ⟨"B", some cbB, true⟩, taskIncC] (0, 0)).invoked
      = XilTimer.enabledNames [taskIncA, ⟨"B", some cbB, true⟩, taskIncC] ∧
    (XilTimer.pollAll [taskIncA, ⟨"B", some cbB, true⟩, taskIncC] (0, 0)).world = (1, 1) := by
  have h := C1_pollAll_fault_isolated (Nat × Nat) [taskIncA] [taskIncC] "B" "boom"
    cbB (0, 0) rfl
  exact ⟨h.1, h.2.1, rfl⟩

/-- C2: a PollAll pass invokes exactly the callbacks of the enabled tasks
with a bound callback, in registration order; RegisterPollTask appends a
task with enabled set, so a newly registered task with a bound callback
joins the invocation list at the end. -/
theorem C2_pollAll_order_register (σ : Type) (tasks : XilTimer.Registry σ) (w : σ)
    (nm : String) (cbf : σ → σ × Option String) :
    (XilTimer.pollAll tasks w).invoked = XilTimer.enabledNames tasks ∧
    XilTimer.RegisterPollTask tasks nm (some cbf) = tasks ++ [⟨nm, some cbf, true⟩] ∧
    XilTimer.enabledNames (XilTimer.RegisterPollTask tasks nm (some cbf))
      = XilTimer.enabledNames tasks ++ [nm] := by
  refine ⟨XilTimer.pollAll_invoked_eq tasks w, rfl, ?_⟩
  simp [XilTimer.RegisterPollTask, XilTimer.enabledNames_append, XilTimer.enabledNames]

/-- C3: from an uninitialized device, Init followed by exactly 3 polls gives
the OPERATIONAL state, and Init followed by fewer than 3 polls leaves the
device INITIALIZING, whatever tick values and connectivity signals the polls
see. -/
theorem C3_init_then_polls (p : NetPhy.PhyDriver) (t0 : Nat)
    (envs : List NetPhy.PollEnv) (_hp : p.state = NetPhy.PhyState.UNINITIALIZED) :
    (envs.length = 3 →
      NetPhy.stateOf (NetPhy.pollSeq envs (NetPhy.Phy_Init t0 (some p)).1)
        = some NetPhy.PhyState.OPERATIONAL) ∧
    (envs.length < 3 →
      NetPhy.stateOf (NetPhy.pollSeq envs (NetPhy.Phy_Init t0 (some p)).1)
        = some NetPhy.PhyState.INITIALIZING) := by
  have hinit : (NetPhy.Phy_Init t0 (some p)).1 =
      some ⟨NetPhy.PhyState.INITIALIZING, 0, false, t0 % NetPhy.U32M⟩ := rfl
  constructor
  · intro hlen
    obtain ⟨e1, e2, e3, rfl⟩ := List.length_eq_three.mp hlen
    rw [hinit, NetPhy.pollSeq_cons,
        NetPhy.poll_initializing_step _ e1.1 e1.2 rfl (by norm_num),
        NetPhy.pollSeq_cons,
        NetPhy.poll_initializing_step _ e2.1 e2.2 rfl (by norm_num),
        NetPhy.pollSeq_cons,
        NetPhy.poll_initializing_done _ e3.1 e3.2 rfl (by norm_num)
          (by norm_num [NetPhy.U32M])]
    rfl
  · intro hlen
    rw [hinit, NetPhy.pollSeq_initializing_lt envs _ rfl (by simpa using hlen)]
    rfl

/-- Witness for C3 at the fresh device: 3 polls reach OPERATIONAL, 1 poll
stays INITIALIZING. -/
theorem C3_witness :
    NetPhy.phyNew.state = NetPhy.PhyState.UNINITIALIZED ∧
    NetPhy.stateOf (NetPhy.pollSeq [(1, true), (2, false), (3, true)]
      (NetPhy.Phy_Init 0 (some NetPhy.phyNew)).1) = some NetPhy.PhyState.OPERATIONAL ∧
    NetPhy.stateOf (NetPhy.pollSeq [(1, true)]
      (NetPhy.Phy_Init 0 (some NetPhy.phyNew)).1) = some NetPhy.PhyState.INITIALIZING := by
  refine ⟨rfl, ?_, ?_⟩
  · exact (C3_init_then_polls NetPhy.phyNew 0 [(1, true), (2, false), (3, true)] rfl).1 rfl
  · exact (C3_init_then_polls NetPhy.phyNew 0 [(1, true)] rfl).2 (by decide)

/-- C4: a device in the ERROR state polled any number of times stays in the
ERROR state, with the counter and link flag untouched; only the last-poll
timestamp is updated, by every poll.  Since Poll never leaves ERROR, only an
explicit Init call can. -/
theorem C4_error_sticky (p : NetPhy.PhyDriver) (envs : List NetPhy.PollEnv)
    (hs : p.state = NetPhy.PhyState.ERROR) :
    NetPhy.pollSeq envs (some p) =
      some ⟨NetPhy.PhyState.ERROR, p.init_counter, p.link_up,
            NetPhy.lastTimeAfter envs p.last_poll_time⟩ ∧
    NetPhy.stateOf (NetPhy.pollSeq envs (some p)) = some NetPhy.PhyState.ERROR := by
  have h := NetPhy.pollSeq_error envs p hs
  exact ⟨h, by rw [h]; rfl⟩

/-- Witness for C4: a concrete errored device polled twice keeps its state,
counter and link flag, and carries the timestamp of the last poll. -/
theorem C4_witness :
    NetPhy.pollSeq [(5, false), (9, true)]
        (some ⟨NetPhy.PhyState.ERROR, 2, true, 7⟩) =
      some ⟨NetPhy.PhyState.ERROR, 2, true, 9⟩ ∧
    NetPhy.stateOf (NetPhy.pollSeq [(5, false), (9, true)]
        (some ⟨NetPhy.PhyState.ERROR, 2, true, 7⟩)) = some NetPhy.PhyState.ERROR := by
  have h := C4_error_sticky ⟨NetPhy.PhyState.ERROR, 2, true, 7⟩ [(5, false), (9, true)] rfl
  simpa [NetPhy.lastTimeAfter, NetPhy.U32M] using h

/-- C5: SetTaskEnabled updates the enabled flag of the first task whose name
matches, leaving the name, callback and position of every task and the
enabled flag of every other task untouched; when no task matches, the whole
registry is returned unchanged, with no error. -/
theorem C5_setTaskEnabled (σ : Type) (tasks : XilTimer.Registry σ)
    (nm : String) (b : Bool) :
    ((∀ t ∈ tasks, t.name ≠ nm) → XilTimer.SetTaskEnabled tasks nm b = tasks) ∧
    (∀ (pre : XilTimer.Registry σ) (tk : XilTimer.PollTask σ)
        (post : XilTimer.Registry σ),
      tasks = pre ++ tk :: post → (∀ u ∈ pre, u.name ≠ nm) → tk.name = nm →
      XilTimer.SetTaskEnabled tasks nm b =
        pre ++ { tk with enabled := b } :: post) := by
  constructor
  · exact XilTimer.SetTaskEnabled_noMatch nm b tasks
  · intro pre tk post hsplit hpre htk
    rw [hsplit]
    exact XilTimer.SetTaskEnabled_firstMatch nm b pre tk post hpre htk

/-- Witness for C5 on a concrete registry holding two tasks named B: an
unknown name changes nothing; the name B flips only the first task named B,
which here is the disabled middle one. -/
theorem C5_witness :
    XilTimer.SetTaskEnabled
        ([⟨"A", none, true⟩, ⟨"B", none, false⟩, ⟨"B", none, true⟩] :
          XilTimer.Registry Nat) "Z" true =
      [⟨"A", none, true⟩, ⟨"B", none, false⟩, ⟨"B", none, true⟩] ∧
    XilTimer.SetTaskEnabled
        ([⟨"A", none, true⟩, ⟨"B", none, false⟩, ⟨"B", none, true⟩] :
          XilTimer.Registry Nat) "B" true =
      [⟨"A", none, true⟩, ⟨"B", none, true⟩, ⟨"B", none, true⟩] := by
  constructor
  · exact (C5_setTaskEnabled Nat _ "Z" true).1
      (by intro t ht; simp at ht; rcases ht with rfl | rfl | rfl <;> decide)
  · exact (C5_setTaskEnabled Nat _ "B" true).2 [⟨"A", none, true⟩]
      ⟨"B", none, false⟩ [⟨"B", none, true⟩] rfl
      (by intro u hu; simp at hu; subst hu; decide) rfl

/-- C6: Phy_IsOperational returns true exactly when the reference is
non-null and the state tag is OPERATIONAL, and returns false on a null
reference; it is a pure function of the device reference, so it modifies
nothing. -/
theorem C6_isOperational (phy : Option NetPhy.PhyDriver) :
    (NetPhy.Phy_IsOperational phy = true ↔
      ∃ p, phy = some p ∧ p.state = NetPhy.PhyState.OPERATIONAL) ∧
    NetPhy.Phy_IsOperational none = false := by
  refine ⟨?_, rfl⟩
  rcases phy with _ | p
  · simp [NetPhy.Phy_IsOperational]
  · simp [NetPhy.Phy_IsOperational]

/-- C7: polling an OPERATIONAL device copies the connectivity signal into
the link-up flag and updates the timestamp, with the state tag and counter
untouched; over two consecutive polls the flag follows the signal of each
poll and the state tag never moves. -/
theorem C7_operational_tracks (p : NetPhy.PhyDriver) (t1 t2 : Nat) (b1 b2 : Bool)
    (hs : p.state = NetPhy.PhyState.OPERATIONAL) :
    (NetPhy.Phy_Poll t1 b1 (some p)).1 =
      some { p with link_up := b1, last_poll_time := t1 % NetPhy.U32M } ∧
    (NetPhy.Phy_Poll t2 b2 ((NetPhy.Phy_Poll t1 b1 (some p)).1)).1 =
      some { p with link_up := b2, last_poll_time := t2 % NetPhy.U32M } := by
  obtain ⟨s, c, l, lt⟩ := p
  simp only at hs
  subst hs
  constructor <;> simp [NetPhy.Phy_Poll]

/-- Witness for C7: a concrete operational device polled with the signal
up then down ends with the flag down and the state still OPERATIONAL. -/
theorem C7_witness :
    (NetPhy.Phy_Poll 10 true (some ⟨NetPhy.PhyState.OPERATIONAL, 3, false, 0⟩)).1 =
      some ⟨NetPhy.PhyState.OPERATIONAL, 3, true, 10⟩ ∧
    (NetPhy.Phy_Poll 11 false
        ((NetPhy.Phy_Poll 10 true
          (some ⟨NetPhy.PhyState.OPERATIONAL, 3, false, 0⟩)).1)).1 =
      some ⟨NetPhy.PhyState.OPERATIONAL, 3, false, 11⟩ := by
  have h := C7_operational_tracks ⟨NetPhy.PhyState.OPERATIONAL, 3, false, 0⟩
    10 11 true false rfl
  simpa [NetPhy.U32M] using h

/-- C8: Phy_Init on a non-null device, from any prior state, sets the state
to INITIALIZING, zeroes the progress counter, clears the link-up flag and
stores the current tick (truncated to u32) as the last-poll time. -/
theorem C8_init_resets (p : NetPhy.PhyDriver) (t : Nat) :
    (NetPhy.Phy_Init t (some p)).1 =
      some ⟨NetPhy.PhyState.INITIALIZING, 0, false, t % NetPhy.U32M⟩ := rfl

/-- C9 counterexample: the claim says a null handle passed to either PHY
operation is logged, but Phy_Poll with a null handle returns at once with
no log line at all: at tick 0 with the signal down its log output is empty. -/
theorem C9_counterexample : (NetPhy.Phy_Poll 0 false none).2 = [] := rfl

/-- C9 amended: with a null handle, Phy_Init logs the invalid reference and
changes nothing, while Phy_Poll silently returns, logging nothing and
changing nothing; in both cases no fault propagates (both are total
functions) and the run continues. -/
theorem C9_null_noop (t : Nat) (b : Bool) :
    NetPhy.Phy_Init t none = (none, ["Phy_Init: Invalid PHY driver pointer"]) ∧
    NetPhy.Phy_Poll t b none = (none, []) ∧
    NetPhy.runOps [NetPhy.PhyOp.init t, NetPhy.PhyOp.poll t b] none = none :=
  ⟨rfl, rfl, rfl⟩

/-- C10: along any sequence of Init and Poll operations from the freshly
constructed device, the initialization progress counter never exceeds 3:
Poll only increments it in the INITIALIZING state, where it stays below 3
until the poll that reaches 3 moves the state to OPERATIONAL, and Init
resets it to 0. -/
theorem C10_counter_bounded (ops : List NetPhy.PhyOp) (q : NetPhy.PhyDriver)
    (h : NetPhy.runOps ops (some NetPhy.phyNew) = some q) : q.init_counter ≤ 3 :=
  (NetPhy.runOps_inv ops (some NetPhy.phyNew)
    (fun p hp => by injection hp with h2; exact h2 ▸ NetPhy.phyInv_new) q h).1

/-- Witness for C10: an Init followed by four polls reaches the operational
device with counter exactly 3, within the bound. -/
theorem C10_witness :
    NetPhy.runOps [NetPhy.PhyOp.init 0, NetPhy.PhyOp.poll 1 true,
        NetPhy.PhyOp.poll 2 true, NetPhy.PhyOp.poll 3 true,
        NetPhy.PhyOp.poll 4 false] (some NetPhy.phyNew) =
      some ⟨NetPhy.PhyState.OPERATIONAL, 3, false, 4⟩ ∧
    (⟨NetPhy.PhyState.OPERATIONAL, 3, false, 4⟩ : NetPhy.PhyDriver).init_counter ≤ 3 := by
  refine ⟨by decide, ?_⟩
  exact C10_counter_bounded [NetPhy.PhyOp.init 0, NetPhy.PhyOp.poll 1 true,
    NetPhy.PhyOp.poll 2 true, NetPhy.PhyOp.poll 3 true,
    NetPhy.PhyOp.poll 4 false] ⟨NetPhy.PhyState.OPERATIONAL, 3, false, 4⟩ (by decide)
